import Mathlib

/-!
Shallow embedding of the dense rank-2 tensor (matrix) container implemented in
`src/Tensor.hpp` (namespace `Tensor`, class template `Tensor<T>`).

Modelling conventions:
* `Tensor α` mirrors the C++ class: `rows`, `cols` and the flat row-major
  element buffer `data : List α` (the `std::vector<T>`).
* C++ exceptions become `Except CppError`.  The C++ code throws
  `std::invalid_argument`, `std::out_of_range` and `std::runtime_error`;
  these are the three constructors of `CppError`, each carrying the thrown
  message string.  The error taxonomy of the spec maps onto them as follows:
  `InvalidArgument` = `invalidArgument`, `OutOfRange` = `outOfRange`,
  `SizeMismatch` = `runtimeError "Size mismatch"`, `DimensionIncompatible` =
  `runtimeError "Matrix dimensions incompatible for multiplication"`.
  (The constructor message in the source contains an apostrophe; it is
  rendered here without the apostrophe, as "Size cannot be 0" — no claim
  depends on that message text.)
* Reads of `data[(i * cols) + j]` (which the C++ performs only at indices
  that were bounds-checked, or that are in bounds by the loop structure)
  are modelled by `atD`, i.e. `List.getD` with default `0`.
* Mutation is modelled by explicit state passing: a mutating C++ member
  becomes a function from the old tensor value to the new one.
* Loops that fill every cell `(i, j)` of a fresh `rows × cols` buffer in
  row-major order are modelled by `mkData`, which produces the flat list
  whose entry at offset `n = i * cols + j` is the value written to cell
  `(i, j)` (recovered as `(n / cols, n % cols)`).
-/

namespace TensorHpp

/-- The exception kinds thrown by `src/Tensor.hpp`, with their message. -/
inductive CppError : Type where
  | invalidArgument (msg : String)
  | outOfRange (msg : String)
  | runtimeError (msg : String)
  deriving DecidableEq

/-- The C++ class `Tensor<T>`: shape plus flat row-major storage. -/
structure Tensor (α : Type) : Type where
  rows : Nat
  cols : Nat
  data : List α
  deriving DecidableEq

/-- Well-formedness: what the C++ constructor establishes and every
operation preserves — positive shape and `data.size() == rows * cols`. -/
def Wf {α : Type} (t : Tensor α) : Prop :=
  1 ≤ t.rows ∧ 1 ≤ t.cols ∧ t.data.length = t.rows * t.cols

instance {α : Type} (t : Tensor α) : Decidable (Wf t) := by
  unfold Wf; infer_instance

/-- `Tensor(size_t rows, size_t cols)` (Tensor.hpp:42-47): buffer of
`rows * cols` value-initialized (`T\x7b\x7d` = zero) elements; throws
`std::invalid_argument` when either dimension is zero. -/
def construct (α : Type) [Zero α] (rows cols : Nat) : Except CppError (Tensor α) :=
  if rows = 0 ∨ cols = 0 then
    Except.error (CppError.invalidArgument "Size cannot be 0")
  else
    Except.ok ⟨rows, cols, List.replicate (rows * cols) 0⟩

/-- The message built at Tensor.hpp:63/78:
`"Index out of range: (" + to_string(i) + ", " + to_string(j) + ")"`. -/
def outOfRangeMsg (i j : Nat) : String :=
  "Index out of range: (" ++ toString i ++ ", " ++ toString j ++ ")"

/-- The raw buffer read `data[(i * cols) + j]` (Tensor.hpp:64/79). -/
def atD {α : Type} [Zero α] (t : Tensor α) (i j : Nat) : α :=
  t.data.getD (i * t.cols + j) 0

/-- `const T& operator()(size_t i, size_t j) const` (Tensor.hpp:75-80):
bounds check, then read at row-major offset `i * cols + j`. -/
def get {α : Type} [Zero α] (t : Tensor α) (i j : Nat) : Except CppError α :=
  if i ≥ t.rows ∨ j ≥ t.cols then
    Except.error (CppError.outOfRange (outOfRangeMsg i j))
  else
    Except.ok (atD t i j)

/-- `T& operator()(size_t i, size_t j)` (Tensor.hpp:60-65) used as an
assignment target `t(i, j) = v`: bounds check, then write at row-major
offset `i * cols + j`; the new state of the tensor is returned. -/
def set {α : Type} (t : Tensor α) (i j : Nat) (v : α) : Except CppError (Tensor α) :=
  if i ≥ t.rows ∨ j ≥ t.cols then
    Except.error (CppError.outOfRange (outOfRangeMsg i j))
  else
    Except.ok ⟨t.rows, t.cols, t.data.set (i * t.cols + j) v⟩

/-- `elementWiseOp` (Tensor.hpp:113-122): shape guard throwing
`std::runtime_error("Size mismatch")`, then `std::transform` pairing the
two buffers — `List.zipWith`. -/
def elementWiseOp {α : Type} (t u : Tensor α) (op : α → α → α) :
    Except CppError (Tensor α) :=
  if t.rows ≠ u.rows ∨ t.cols ≠ u.cols then
    Except.error (CppError.runtimeError "Size mismatch")
  else
    Except.ok ⟨t.rows, t.cols, List.zipWith op t.data u.data⟩

/-- `operator+` (Tensor.hpp:130-133): `elementWiseOp(other, std::plus)`. -/
def add {α : Type} [Add α] (t u : Tensor α) : Except CppError (Tensor α) :=
  elementWiseOp t u (fun x y => x + y)

/-- `operator-` (Tensor.hpp:141-144): `elementWiseOp(other, std::minus)`. -/
def sub {α : Type} [Sub α] (t u : Tensor α) : Except CppError (Tensor α) :=
  elementWiseOp t u (fun x y => x - y)

/-- `operator*(const T& scalar)` (Tensor.hpp:152-158): maps
`val * scalar` over the buffer. -/
def smul {α : Type} [Mul α] (t : Tensor α) (k : α) : Tensor α :=
  ⟨t.rows, t.cols, t.data.map (fun v => v * k)⟩

/-- Free function `operator*(const U& scalar, const Tensor<T>& tensor)`
(Tensor.hpp:272-276): returns `tensor * scalar` — pure delegation, with
the scalar already of the element type. -/
def smulLeft {α : Type} [Mul α] (k : α) (t : Tensor α) : Tensor α :=
  smul t k

/-- The same free function when the scalar type `U` differs from the
element type `T`: the call `tensor * scalar` binds `scalar` to the
`const T&` parameter, converting `U` to `T` once, before any element is
multiplied.  `conv` is that implicit conversion. -/
def smulLeftConv {α β : Type} [Mul α] (conv : β → α) (k : β) (t : Tensor α) :
    Tensor α :=
  smul t (conv k)

/-- The C++ implicit conversion `double → int` applied to an exactly
representable value, modelled on `Rat`: truncation toward zero. -/
def ratToIntTrunc (q : Rat) : Int :=
  Int.tdiv q.num (q.den : Int)

/-- Row-major buffer of a `r × c` result whose cell `(i, j)` holds
`f i j`: the entry at flat offset `n` (with `n = i * c + j`) is
`f (n / c) (n % c)`.  This is the net effect of the C++ double loops that
assign `result(i, j)` for every `i < r`, `j < c`. -/
def mkData {α : Type} (r c : Nat) (f : Nat → Nat → α) : List α :=
  (List.range (r * c)).map (fun n => f (n / c) (n % c))

/-- The inner accumulation of `operator*(const Tensor<T>&)`
(Tensor.hpp:180-184): `T sum = T\x7b\x7d; for k: sum += a(i,k) * b(k,j)`. -/
def dotCell {α : Type} [Zero α] [Add α] [Mul α] (a b : Tensor α) (i j : Nat) : α :=
  (List.range a.cols).foldl (fun s k => s + atD a i k * atD b k j) 0

/-- `operator*(const Tensor<T>&)` (Tensor.hpp:167-189): guard
`cols != other.rows` throwing `std::runtime_error`, then a
`rows × other.cols` result whose cell `(i, j)` is `dotCell`. -/
def matmul {α : Type} [Zero α] [Add α] [Mul α] (a b : Tensor α) :
    Except CppError (Tensor α) :=
  if a.cols ≠ b.rows then
    Except.error (CppError.runtimeError "Matrix dimensions incompatible for multiplication")
  else
    Except.ok ⟨a.rows, b.cols, mkData a.rows b.cols (fun i j => dotCell a b i j)⟩

/-- `transpose()` (Tensor.hpp:210-221): a fresh `cols × rows` tensor with
`result(j, i) = (*this)(i, j)`, i.e. cell `(i, j)` of the result holds
the old `(j, i)`. -/
def transpose {α : Type} [Zero α] (t : Tensor α) : Tensor α :=
  ⟨t.cols, t.rows, mkData t.cols t.rows (fun i j => atD t j i)⟩

/-- In-place transposition of a tensor variable, as performed by the
repository itself (`B = B.transpose();`, src/tests/test1.cpp:16):
`transpose()` computes the transposed buffer in full in a temporary, and
the assignment then replaces the shape and storage of the receiver wholesale.
In the state-passing model the new state of the receiver is exactly the
out-of-place transpose. -/
def transposeInPlace {α : Type} [Zero α] (t : Tensor α) : Tensor α :=
  transpose t

/-- `fill` (Tensor.hpp:229-234): `std::fill` overwrites every element of
the buffer with the (converted) value. -/
def fill {α : Type} (t : Tensor α) (v : α) : Tensor α :=
  ⟨t.rows, t.cols, t.data.map (fun _ => v)⟩

/-- Concatenation of a list of output fragments in order — the text a
sequence of `std::cout <<` statements emits. -/
def concatAll : List String → String
  | [] => ""
  | a :: rest => a ++ concatAll rest

/-- One cell of `print()` (Tensor.hpp:245-246): the element, followed by
a single space unless it is the last of its row (`if (j < cols - 1)`). -/
def renderCell {α : Type} [Zero α] [ToString α] (t : Tensor α) (i j : Nat) : String :=
  toString (atD t i j) ++ (if j < t.cols - 1 then " " else "")

/-- `print()` (Tensor.hpp:239-250): for each row, every cell in order,
then `std::endl` — a newline after every row, the last one included. -/
def render {α : Type} [Zero α] [ToString α] (t : Tensor α) : String :=
  concatAll ((List.range t.rows).map (fun i =>
    concatAll ((List.range t.cols).map (fun j => renderCell t i j)) ++ "\n"))

/-- Fragments joined with the separator `s` strictly between them. -/
def sepBy (s : String) : List String → String
  | [] => ""
  | [a] => a
  | a :: b :: rest => a ++ s ++ sepBy s (b :: rest)

/-- Written from the words of the spec (§4.9, amended): row-major text, each
row its elements separated by a single space with no trailing separator,
each row terminated by a line break (so the text ends in a newline). -/
def renderSpec {α : Type} [Zero α] [ToString α] (t : Tensor α) : String :=
  sepBy "\n" ((List.range t.rows).map (fun i =>
    sepBy " " ((List.range t.cols).map (fun j => toString (atD t i j))))) ++ "\n"

/-! ## Shared helper lemmas -/

theorem index_lt {i j r c : Nat} (hi : i < r) (hj : j < c) : i * c + j < r * c :=
  calc i * c + j < i * c + c := by omega
    _ = (i + 1) * c := by ring
    _ ≤ r * c := Nat.mul_le_mul hi (le_refl c)

theorem length_mkData {α : Type} (r c : Nat) (f : Nat → Nat → α) :
    (mkData r c f).length = r * c := by
  simp [mkData]

theorem getElem_mkData {α : Type} {r c : Nat} (f : Nat → Nat → α) {n : Nat}
    (h : n < (mkData r c f).length) :
    (mkData r c f)[n] = f (n / c) (n % c) := by
  simp [mkData]

theorem getD_mkData {α : Type} {r c i j : Nat} (f : Nat → Nat → α) (d : α)
    (hi : i < r) (hj : j < c) :
    (mkData r c f).getD (i * c + j) d = f i j := by
  have hc : 0 < c := Nat.pos_of_ne_zero (by omega)
  have hn : i * c + j < (mkData r c f).length := by
    rw [length_mkData]; exact index_lt hi hj
  rw [List.getD_eq_getElem _ _ hn, getElem_mkData]
  have h1 : (i * c + j) / c = i := by
    rw [Nat.mul_comm, Nat.mul_add_div hc, Nat.div_eq_of_lt hj, Nat.add_zero]
  have h2 : (i * c + j) % c = j := by
    rw [Nat.mul_comm, Nat.mul_add_mod, Nat.mod_eq_of_lt hj]
  rw [h1, h2]

theorem mkData_atD {α : Type} [Zero α] (t : Tensor α)
    (h : t.data.length = t.rows * t.cols) :
    mkData t.rows t.cols (fun i j => atD t i j) = t.data := by
  apply List.ext_getElem
  · rw [length_mkData, h]
  · intro n h1 h2
    rw [getElem_mkData]
    show t.data.getD (n / t.cols * t.cols + n % t.cols) 0 = t.data[n]
    have hn : n / t.cols * t.cols + n % t.cols = n := by
      rw [Nat.mul_comm]; exact Nat.div_add_mod n t.cols
    rw [hn, List.getD_eq_getElem _ _ h2]

theorem foldl_range_sum {M : Type} [AddCommMonoid M] (g : Nat → M) (n : Nat) :
    (List.range n).foldl (fun s k => s + g k) 0 = Finset.sum (Finset.range n) g := by
  induction n with
  | zero => simp
  | succ m ih =>
      rw [List.range_succ, List.foldl_append, ih, Finset.sum_range_succ]
      rfl

theorem getD_zipWith {α : Type} {op : α → α → α} {l1 l2 : List α} {n : Nat} (d : α)
    (h1 : n < l1.length) (h2 : n < l2.length) :
    (List.zipWith op l1 l2).getD n d = op (l1.getD n d) (l2.getD n d) := by
  have h : n < (List.zipWith op l1 l2).length := by
    rw [List.length_zipWith]; exact lt_min h1 h2
  rw [List.getD_eq_getElem _ _ h, List.getD_eq_getElem _ _ h1,
    List.getD_eq_getElem _ _ h2, List.getElem_zipWith]

theorem atD_smul {α : Type} [Zero α] [Mul α] (t : Tensor α) (k : α) {i j : Nat}
    (ht : Wf t) (hi : i < t.rows) (hj : j < t.cols) :
    atD (smul t k) i j = atD t i j * k := by
  obtain ⟨h1, h2, h3⟩ := ht
  have hn : i * t.cols + j < t.data.length := by rw [h3]; exact index_lt hi hj
  have hm : i * t.cols + j < (t.data.map (fun v => v * k)).length := by
    rw [List.length_map]; exact hn
  show (t.data.map (fun v => v * k)).getD (i * t.cols + j) 0 = t.data.getD (i * t.cols + j) 0 * k
  rw [List.getD_eq_getElem _ _ hm, List.getD_eq_getElem _ _ hn, List.getElem_map]

theorem atD_transpose {α : Type} [Zero α] (t : Tensor α) {i j : Nat}
    (hi : i < t.rows) (hj : j < t.cols) :
    atD (transpose t) j i = atD t i j := by
  show (mkData t.cols t.rows (fun p q => atD t q p)).getD (j * t.rows + i) 0 = atD t i j
  rw [getD_mkData _ _ hj hi]

theorem concatAll_snoc_sepBy (s : String) (l : List String) (x : String) :
    concatAll ((l.map (fun a => a ++ s)) ++ [x]) = sepBy s (l ++ [x]) := by
  induction l with
  | nil => simp [concatAll, sepBy, String.append_empty]
  | cons a rest ih =>
      cases rest with
      | nil =>
          simp [concatAll, sepBy, String.append_empty, String.append_assoc]
      | cons b rt =>
          simp only [List.map_cons, List.cons_append, concatAll] at ih ⊢
          rw [ih]
          simp [sepBy, String.append_assoc]

theorem concatAll_lines (l : List String) (h : l ≠ []) :
    concatAll (l.map (fun a => a ++ "\n")) = sepBy "\n" l ++ "\n" := by
  induction l with
  | nil => cases h rfl
  | cons a rest ih =>
      cases rest with
      | nil => simp [concatAll, sepBy, String.append_empty]
      | cons b rt =>
          have hne : (b :: rt) ≠ [] := by simp
          simp only [List.map_cons, concatAll] at ih ⊢
          rw [ih hne]
          simp [sepBy, String.append_assoc]

theorem concatAll_row (c : Nat) (hc : 0 < c) (g : Nat → String) :
    concatAll ((List.range c).map (fun j => g j ++ (if j < c - 1 then " " else ""))) =
      sepBy " " ((List.range c).map g) := by
  obtain ⟨d, rfl⟩ : ∃ d, c = d + 1 := ⟨c - 1, by omega⟩
  rw [List.range_succ, List.map_append, List.map_append]
  have hmap : (List.range d).map (fun j => g j ++ (if j < d + 1 - 1 then " " else "")) =
      ((List.range d).map g).map (fun a => a ++ " ") := by
    rw [List.map_map]
    apply List.map_congr_left
    intro a ha
    have haa : a < d := List.mem_range.mp ha
    simp [haa]
  have hlast : [d].map (fun j => g j ++ (if j < d + 1 - 1 then " " else "")) = [g d] := by
    simp [String.append_empty]
  rw [hmap, hlast, concatAll_snoc_sepBy]
  rfl

theorem render_eq_renderSpec {α : Type} [Zero α] [ToString α] (t : Tensor α)
    (hr : 0 < t.rows) (hc : 0 < t.cols) :
    render t = renderSpec t := by
  unfold render renderSpec renderCell
  have h1 : (List.range t.rows).map (fun i =>
        concatAll ((List.range t.cols).map (fun j =>
          toString (atD t i j) ++ (if j < t.cols - 1 then " " else ""))) ++ "\n") =
      ((List.range t.rows).map (fun i =>
        sepBy " " ((List.range t.cols).map (fun j => toString (atD t i j))))).map
          (fun a => a ++ "\n") := by
    rw [List.map_map]
    apply List.map_congr_left
    intro i _
    show concatAll ((List.range t.cols).map (fun j =>
        toString (atD t i j) ++ (if j < t.cols - 1 then " " else ""))) ++ "\n" = _
    rw [concatAll_row t.cols hc (fun j => toString (atD t i j))]
    rfl
  rw [h1, concatAll_lines]
  intro hnil
  have hlen : ((List.range t.rows).map (fun i =>
      sepBy " " ((List.range t.cols).map (fun j => toString (atD t i j))))).length = t.rows := by
    rw [List.length_map, List.length_range]
  rw [hnil] at hlen
  simp at hlen
  omega

theorem wf_construct {α : Type} [Zero α] {r c : Nat} {t : Tensor α}
    (h : construct α r c = Except.ok t) : Wf t := by
  unfold construct at h
  split at h
  · exact Except.noConfusion h
  · rename_i hcond
    injection h with h
    subst h
    refine ⟨by show 1 ≤ r; omega, by show 1 ≤ c; omega, ?_⟩
    show (List.replicate (r * c) (0 : α)).length = r * c
    simp [List.length_replicate]

theorem wf_set {α : Type} {t w : Tensor α} {i j : Nat} {v : α}
    (ht : Wf t) (h : set t i j v = Except.ok w) : Wf w := by
  unfold set at h
  split at h
  · exact Except.noConfusion h
  · injection h with h
    subst h
    exact ⟨ht.1, ht.2.1, by rw [List.length_set]; exact ht.2.2⟩

theorem wf_fill {α : Type} {t : Tensor α} (v : α) (ht : Wf t) : Wf (fill t v) :=
  ⟨ht.1, ht.2.1, by
    show (t.data.map (fun _ => v)).length = t.rows * t.cols
    rw [List.length_map]; exact ht.2.2⟩

theorem wf_elementWiseOp {α : Type} {t u w : Tensor α} {op : α → α → α}
    (ht : Wf t) (hu : Wf u) (h : elementWiseOp t u op = Except.ok w) : Wf w := by
  unfold elementWiseOp at h
  split at h
  · exact Except.noConfusion h
  · rename_i hcond
    push_neg at hcond
    injection h with h
    subst h
    refine ⟨ht.1, ht.2.1, ?_⟩
    rw [List.length_zipWith, ht.2.2, hu.2.2, hcond.1, hcond.2, min_self]

theorem wf_smul {α : Type} [Mul α] {t : Tensor α} (k : α) (ht : Wf t) : Wf (smul t k) :=
  ⟨ht.1, ht.2.1, by
    show (t.data.map (fun v => v * k)).length = t.rows * t.cols
    rw [List.length_map]; exact ht.2.2⟩

theorem wf_matmul {α : Type} [Zero α] [Add α] [Mul α] {a b w : Tensor α}
    (ha : Wf a) (hb : Wf b) (h : matmul a b = Except.ok w) : Wf w := by
  unfold matmul at h
  split at h
  · exact Except.noConfusion h
  · injection h with h
    subst h
    exact ⟨ha.1, hb.2.1, by rw [length_mkData]⟩

theorem wf_transpose {α : Type} [Zero α] {t : Tensor α} (ht : Wf t) : Wf (transpose t) :=
  ⟨ht.2.1, ht.1, by
    show (mkData t.cols t.rows (fun i j => atD t j i)).length = t.cols * t.rows
    rw [length_mkData]⟩

theorem atD_combined {α : Type} [Zero α] (a b : Tensor α) (op : α → α → α)
    {i j : Nat} (ha : Wf a) (hb : Wf b) (hr : a.rows = b.rows) (hc : a.cols = b.cols)
    (hi : i < a.rows) (hj : j < a.cols) :
    atD (⟨a.rows, a.cols, List.zipWith op a.data b.data⟩ : Tensor α) i j =
      op (atD a i j) (atD b i j) := by
  have h1 : i * a.cols + j < a.data.length := by rw [ha.2.2]; exact index_lt hi hj
  have h2 : i * a.cols + j < b.data.length := by
    rw [hb.2.2, ← hr, ← hc]; exact index_lt hi hj
  show (List.zipWith op a.data b.data).getD (i * a.cols + j) 0 =
    op (a.data.getD (i * a.cols + j) 0) (b.data.getD (i * b.cols + j) 0)
  rw [← hc, getD_zipWith 0 h1 h2]

/-! ## Claim theorems -/

/-- C1: matrix multiplication `matmul a b` requires `a.cols = b.rows` and
fails with the `DimensionIncompatible` error (the thrown
`std::runtime_error`) otherwise; on success the result has shape
`(a.rows, b.cols)` and its cell `(i, j)` equals the sum over
`k < a.cols` of `a(i,k) * b(k,j)`, with the accumulator started at the
additive identity. -/
theorem matmul_correct {α : Type} [NonUnitalNonAssocSemiring α] (a b : Tensor α)
    (ha : Wf a) (hb : Wf b) :
    (a.cols ≠ b.rows →
      matmul a b = Except.error
        (CppError.runtimeError "Matrix dimensions incompatible for multiplication")) ∧
    (a.cols = b.rows →
      ∃ c : Tensor α, matmul a b = Except.ok c ∧ c.rows = a.rows ∧ c.cols = b.cols ∧
        ∀ i j : Nat, i < a.rows → j < b.cols →
          atD c i j = Finset.sum (Finset.range a.cols) (fun k => atD a i k * atD b k j)) := by
  constructor
  · intro h
    simp [matmul, h]
  · intro h
    refine ⟨⟨a.rows, b.cols, mkData a.rows b.cols (fun i j => dotCell a b i j)⟩,
      ?_, rfl, rfl, ?_⟩
    · simp [matmul, h]
    · intro i j hi hj
      show (mkData a.rows b.cols (fun i j => dotCell a b i j)).getD (i * b.cols + j) 0 = _
      rw [getD_mkData _ _ hi hj]
      exact foldl_range_sum (fun k => atD a i k * atD b k j) a.cols

/-- C1 witness: the concrete scenario of the spec, `[15 15] * [[30],[30]]`,
which indeed multiplies to the 1×1 tensor `[[900]]`. -/
theorem matmul_correct_witness :
    (((⟨1, 2, [15, 15]⟩ : Tensor Int).cols ≠ (⟨2, 1, [30, 30]⟩ : Tensor Int).rows →
      matmul (⟨1, 2, [15, 15]⟩ : Tensor Int) (⟨2, 1, [30, 30]⟩ : Tensor Int) =
        Except.error
          (CppError.runtimeError "Matrix dimensions incompatible for multiplication")) ∧
    ((⟨1, 2, [15, 15]⟩ : Tensor Int).cols = (⟨2, 1, [30, 30]⟩ : Tensor Int).rows →
      ∃ c : Tensor Int,
        matmul (⟨1, 2, [15, 15]⟩ : Tensor Int) (⟨2, 1, [30, 30]⟩ : Tensor Int) =
          Except.ok c ∧
        c.rows = (⟨1, 2, [15, 15]⟩ : Tensor Int).rows ∧
        c.cols = (⟨2, 1, [30, 30]⟩ : Tensor Int).cols ∧
        ∀ i j : Nat, i < (⟨1, 2, [15, 15]⟩ : Tensor Int).rows →
          j < (⟨2, 1, [30, 30]⟩ : Tensor Int).cols →
          atD c i j = Finset.sum (Finset.range (⟨1, 2, [15, 15]⟩ : Tensor Int).cols)
            (fun k => atD (⟨1, 2, [15, 15]⟩ : Tensor Int) i k *
              atD (⟨2, 1, [30, 30]⟩ : Tensor Int) k j))) ∧
    matmul (⟨1, 2, [15, 15]⟩ : Tensor Int) (⟨2, 1, [30, 30]⟩ : Tensor Int) =
      Except.ok (⟨1, 1, [900]⟩ : Tensor Int) :=
  ⟨matmul_correct (⟨1, 2, [15, 15]⟩ : Tensor Int) (⟨2, 1, [30, 30]⟩ : Tensor Int)
    (by decide) (by decide), by rfl⟩

/-- C2: `add`/`sub` fail with the `SizeMismatch` error (the thrown
`std::runtime_error`) exactly when the operand shapes differ; on success
the result has the common shape and its element `(i, j)` is
`a(i,j) + b(i,j)` resp. `a(i,j) - b(i,j)`.  Operands are immutable values
in this embedding: both operations build a fresh tensor, so the operands
are left unmodified by construction. -/
theorem add_sub_correct {α : Type} [Zero α] [Add α] [Sub α] (a b : Tensor α)
    (ha : Wf a) (hb : Wf b) :
    (a.rows ≠ b.rows ∨ a.cols ≠ b.cols →
      add a b = Except.error (CppError.runtimeError "Size mismatch") ∧
      sub a b = Except.error (CppError.runtimeError "Size mismatch")) ∧
    (a.rows = b.rows → a.cols = b.cols →
      (∃ c : Tensor α, add a b = Except.ok c ∧ c.rows = a.rows ∧ c.cols = a.cols ∧
        ∀ i j : Nat, i < a.rows → j < a.cols → atD c i j = atD a i j + atD b i j) ∧
      (∃ c : Tensor α, sub a b = Except.ok c ∧ c.rows = a.rows ∧ c.cols = a.cols ∧
        ∀ i j : Nat, i < a.rows → j < a.cols → atD c i j = atD a i j - atD b i j)) := by
  constructor
  · intro h
    constructor
    · simp only [add, elementWiseOp]
      rw [if_pos h]
    · simp only [sub, elementWiseOp]
      rw [if_pos h]
  · intro hr hc
    constructor
    · refine ⟨⟨a.rows, a.cols, List.zipWith (fun x y => x + y) a.data b.data⟩, ?_, rfl, rfl, ?_⟩
      · simp only [add, elementWiseOp]
        rw [if_neg (by simp [hr, hc])]
      · intro i j hi hj
        exact atD_combined a b (fun x y => x + y) ha hb hr hc hi hj
    · refine ⟨⟨a.rows, a.cols, List.zipWith (fun x y => x - y) a.data b.data⟩, ?_, rfl, rfl, ?_⟩
      · simp only [sub, elementWiseOp]
        rw [if_neg (by simp [hr, hc])]
      · intro i j hi hj
        exact atD_combined a b (fun x y => x - y) ha hb hr hc hi hj

/-- C2 witness: instantiated at the 1×2 integer tensors `[1 2]` and
`[10 20]`; also evaluates `add` and `sub` there concretely. -/
theorem add_sub_correct_witness :
    (((⟨1, 2, [1, 2]⟩ : Tensor Int).rows ≠ (⟨1, 2, [10, 20]⟩ : Tensor Int).rows ∨
      (⟨1, 2, [1, 2]⟩ : Tensor Int).cols ≠ (⟨1, 2, [10, 20]⟩ : Tensor Int).cols →
      add (⟨1, 2, [1, 2]⟩ : Tensor Int) (⟨1, 2, [10, 20]⟩ : Tensor Int) =
        Except.error (CppError.runtimeError "Size mismatch") ∧
      sub (⟨1, 2, [1, 2]⟩ : Tensor Int) (⟨1, 2, [10, 20]⟩ : Tensor Int) =
        Except.error (CppError.runtimeError "Size mismatch")) ∧
    ((⟨1, 2, [1, 2]⟩ : Tensor Int).rows = (⟨1, 2, [10, 20]⟩ : Tensor Int).rows →
      (⟨1, 2, [1, 2]⟩ : Tensor Int).cols = (⟨1, 2, [10, 20]⟩ : Tensor Int).cols →
      (∃ c : Tensor Int,
        add (⟨1, 2, [1, 2]⟩ : Tensor Int) (⟨1, 2, [10, 20]⟩ : Tensor Int) = Except.ok c ∧
        c.rows = (⟨1, 2, [1, 2]⟩ : Tensor Int).rows ∧
        c.cols = (⟨1, 2, [1, 2]⟩ : Tensor Int).cols ∧
        ∀ i j : Nat, i < (⟨1, 2, [1, 2]⟩ : Tensor Int).rows →
          j < (⟨1, 2, [1, 2]⟩ : Tensor Int).cols →
          atD c i j = atD (⟨1, 2, [1, 2]⟩ : Tensor Int) i j +
            atD (⟨1, 2, [10, 20]⟩ : Tensor Int) i j) ∧
      (∃ c : Tensor Int,
        sub (⟨1, 2, [1, 2]⟩ : Tensor Int) (⟨1, 2, [10, 20]⟩ : Tensor Int) = Except.ok c ∧
        c.rows = (⟨1, 2, [1, 2]⟩ : Tensor Int).rows ∧
        c.cols = (⟨1, 2, [1, 2]⟩ : Tensor Int).cols ∧
        ∀ i j : Nat, i < (⟨1, 2, [1, 2]⟩ : Tensor Int).rows →
          j < (⟨1, 2, [1, 2]⟩ : Tensor Int).cols →
          atD c i j = atD (⟨1, 2, [1, 2]⟩ : Tensor Int) i j -
            atD (⟨1, 2, [10, 20]⟩ : Tensor Int) i j))) ∧
    add (⟨1, 2, [1, 2]⟩ : Tensor Int) (⟨1, 2, [10, 20]⟩ : Tensor Int) =
      Except.ok (⟨1, 2, [11, 22]⟩ : Tensor Int) ∧
    sub (⟨1, 2, [1, 2]⟩ : Tensor Int) (⟨1, 2, [10, 20]⟩ : Tensor Int) =
      Except.ok (⟨1, 2, [-9, -18]⟩ : Tensor Int) :=
  ⟨add_sub_correct (⟨1, 2, [1, 2]⟩ : Tensor Int) (⟨1, 2, [10, 20]⟩ : Tensor Int)
    (by decide) (by decide), by rfl, by rfl⟩

/-- C3 (amended): `get`/`set` fail with `OutOfRange` — carrying the
offending `(i, j)` in the message, but NOT the bound — exactly when
`i ≥ rows` or `j ≥ cols`; on success they read/write exactly the element
at the row-major flat offset `i*cols + j`, and a `set` is immediately
visible to subsequent `get`s on the same instance. -/
theorem get_set_correct {α : Type} [Zero α] (t : Tensor α) (i j : Nat) (v : α)
    (ht : Wf t) :
    (i ≥ t.rows ∨ j ≥ t.cols →
      get t i j = Except.error (CppError.outOfRange (outOfRangeMsg i j)) ∧
      set t i j v = Except.error (CppError.outOfRange (outOfRangeMsg i j))) ∧
    (i < t.rows → j < t.cols →
      get t i j = Except.ok (t.data.getD (i * t.cols + j) 0) ∧
      ∃ t2 : Tensor α, set t i j v = Except.ok t2 ∧ t2.rows = t.rows ∧ t2.cols = t.cols ∧
        t2.data = t.data.set (i * t.cols + j) v ∧
        get t2 i j = Except.ok v) := by
  constructor
  · intro h
    constructor
    · simp only [get]
      rw [if_pos h]
    · simp only [set]
      rw [if_pos h]
  · intro hi hj
    refine ⟨?_, ⟨t.rows, t.cols, t.data.set (i * t.cols + j) v⟩, ?_, rfl, rfl, rfl, ?_⟩
    · simp only [get]
      rw [if_neg (by omega : ¬(i ≥ t.rows ∨ j ≥ t.cols))]
      rfl
    · simp only [set]
      rw [if_neg (by omega : ¬(i ≥ t.rows ∨ j ≥ t.cols))]
    · simp only [get]
      rw [if_neg (by omega : ¬(i ≥ t.rows ∨ j ≥ t.cols))]
      have hn : i * t.cols + j < (t.data.set (i * t.cols + j) v).length := by
        rw [List.length_set, ht.2.2]; exact index_lt hi hj
      show Except.ok ((t.data.set (i * t.cols + j) v).getD (i * t.cols + j) 0) = Except.ok v
      rw [List.getD_eq_getElem _ _ hn, List.getElem_set_self]

/-- C3 witness: instantiated at a 2×3 zero tensor, index (1, 2), value 42. -/
theorem get_set_correct_witness :
    (((1 : Nat) ≥ (⟨2, 3, List.replicate 6 (0 : Int)⟩ : Tensor Int).rows ∨
      (2 : Nat) ≥ (⟨2, 3, List.replicate 6 (0 : Int)⟩ : Tensor Int).cols →
      get (⟨2, 3, List.replicate 6 (0 : Int)⟩ : Tensor Int) 1 2 =
        Except.error (CppError.outOfRange (outOfRangeMsg 1 2)) ∧
      set (⟨2, 3, List.replicate 6 (0 : Int)⟩ : Tensor Int) 1 2 42 =
        Except.error (CppError.outOfRange (outOfRangeMsg 1 2))) ∧
    ((1 : Nat) < (⟨2, 3, List.replicate 6 (0 : Int)⟩ : Tensor Int).rows →
      (2 : Nat) < (⟨2, 3, List.replicate 6 (0 : Int)⟩ : Tensor Int).cols →
      get (⟨2, 3, List.replicate 6 (0 : Int)⟩ : Tensor Int) 1 2 =
        Except.ok ((⟨2, 3, List.replicate 6 (0 : Int)⟩ : Tensor Int).data.getD
          (1 * (⟨2, 3, List.replicate 6 (0 : Int)⟩ : Tensor Int).cols + 2) 0) ∧
      ∃ t2 : Tensor Int,
        set (⟨2, 3, List.replicate 6 (0 : Int)⟩ : Tensor Int) 1 2 42 = Except.ok t2 ∧
        t2.rows = (⟨2, 3, List.replicate 6 (0 : Int)⟩ : Tensor Int).rows ∧
        t2.cols = (⟨2, 3, List.replicate 6 (0 : Int)⟩ : Tensor Int).cols ∧
        t2.data = (⟨2, 3, List.replicate 6 (0 : Int)⟩ : Tensor Int).data.set
          (1 * (⟨2, 3, List.replicate 6 (0 : Int)⟩ : Tensor Int).cols + 2) 42 ∧
        get t2 1 2 = Except.ok 42)) :=
  get_set_correct (⟨2, 3, List.replicate 6 (0 : Int)⟩ : Tensor Int) 1 2 42 (by decide)

/-- C3 counterexample: the claim as stated says the `OutOfRange` error
carries the offending `(i, j)` AND the bound.  It does not carry the
bound: a 2×3 tensor and a 7×9 tensor produce bit-identical error values
for the same offending index (the message only interpolates `i` and `j`,
Tensor.hpp:63), so no reader of the error can recover the bound from it. -/
theorem get_error_lacks_bound :
    get (⟨2, 3, List.replicate 6 (0 : Int)⟩ : Tensor Int) 100 0 =
      Except.error (CppError.outOfRange (outOfRangeMsg 100 0)) ∧
    get (⟨7, 9, List.replicate 63 (0 : Int)⟩ : Tensor Int) 100 0 =
      Except.error (CppError.outOfRange (outOfRangeMsg 100 0)) ∧
    (⟨2, 3, List.replicate 6 (0 : Int)⟩ : Tensor Int).rows ≠
      (⟨7, 9, List.replicate 63 (0 : Int)⟩ : Tensor Int).rows :=
  ⟨rfl, rfl, by decide⟩

/-- C4: construction fails with `InvalidArgument` exactly when `rows = 0`
or `cols = 0`; for positive dimensions it succeeds, with shape
`(rows, cols)` and every one of the `rows * cols` elements equal to the
additive identity. -/
theorem construct_correct (α : Type) [Zero α] (r c : Nat) :
    (r = 0 ∨ c = 0 →
      construct α r c = Except.error (CppError.invalidArgument "Size cannot be 0")) ∧
    (0 < r → 0 < c → ∃ t : Tensor α, construct α r c = Except.ok t ∧
      t.rows = r ∧ t.cols = c ∧ t.data.length = r * c ∧ ∀ x ∈ t.data, x = 0) := by
  constructor
  · intro h
    simp only [construct]
    rw [if_pos h]
  · intro hr hc
    refine ⟨⟨r, c, List.replicate (r * c) 0⟩, ?_, rfl, rfl, ?_, ?_⟩
    · simp only [construct]
      rw [if_neg (by omega : ¬(r = 0 ∨ c = 0))]
    · show (List.replicate (r * c) (0 : α)).length = r * c
      exact List.length_replicate (r * c) 0
    · intro x hx
      exact List.eq_of_mem_replicate hx

/-- C4 witness: `construct 0 3` fails with `InvalidArgument`;
`construct 2 3` yields a 2×3 tensor of six zeros. -/
theorem construct_correct_witness :
    construct Int 0 3 = Except.error (CppError.invalidArgument "Size cannot be 0") ∧
    (∃ t : Tensor Int, construct Int 2 3 = Except.ok t ∧
      t.rows = 2 ∧ t.cols = 3 ∧ t.data.length = 2 * 3 ∧ ∀ x ∈ t.data, x = 0) :=
  ⟨(construct_correct Int 0 3).1 (Or.inl rfl),
    (construct_correct Int 2 3).2 (by decide) (by decide)⟩

/-- C5: in-place transposition (the `t = t.transpose()` idiom of the
repository, modelled by the state transformer `transposeInPlace`): the new
state of the receiver has shape `(old cols, old rows)`, its element
`(j, i)` is the old element `(i, j)`, and — capturing the atomic
replacement — the new state is exactly the fully recomputed out-of-place
transpose, so no partially-transposed state exists in the model. -/
theorem transposeInPlace_correct {α : Type} [Zero α] (t : Tensor α) (ht : Wf t) :
    (transposeInPlace t).rows = t.cols ∧
    (transposeInPlace t).cols = t.rows ∧
    (∀ i j : Nat, i < t.rows → j < t.cols → atD (transposeInPlace t) j i = atD t i j) ∧
    transposeInPlace t = transpose t :=
  ⟨rfl, rfl, fun _ _ hi hj => atD_transpose t hi hj, rfl⟩

/-- C5 witness: instantiated at the 2×1 tensor `[[30],[30]]` used by the
test of the repository itself before it transposes in place. -/
theorem transposeInPlace_correct_witness :
    (transposeInPlace (⟨2, 1, [30, 30]⟩ : Tensor Int)).rows =
      (⟨2, 1, [30, 30]⟩ : Tensor Int).cols ∧
    (transposeInPlace (⟨2, 1, [30, 30]⟩ : Tensor Int)).cols =
      (⟨2, 1, [30, 30]⟩ : Tensor Int).rows ∧
    (∀ i j : Nat, i < (⟨2, 1, [30, 30]⟩ : Tensor Int).rows →
      j < (⟨2, 1, [30, 30]⟩ : Tensor Int).cols →
      atD (transposeInPlace (⟨2, 1, [30, 30]⟩ : Tensor Int)) j i =
        atD (⟨2, 1, [30, 30]⟩ : Tensor Int) i j) ∧
    transposeInPlace (⟨2, 1, [30, 30]⟩ : Tensor Int) =
      transpose (⟨2, 1, [30, 30]⟩ : Tensor Int) :=
  transposeInPlace_correct (⟨2, 1, [30, 30]⟩ : Tensor Int) (by decide)

/-- C6: `smul t k` (`tensor * scalar`) preserves the shape and multiplies
every element by `k` on the right; and the reflected scalar-first form
`smulLeft` equals the member form because it delegates to it
(Tensor.hpp:275 is `return tensor * scalar;`). -/
theorem smul_correct {α : Type} [Zero α] [Mul α] (t : Tensor α) (k : α) (ht : Wf t) :
    (smul t k).rows = t.rows ∧ (smul t k).cols = t.cols ∧
    (∀ i j : Nat, i < t.rows → j < t.cols → atD (smul t k) i j = atD t i j * k) ∧
    (∀ (u : Tensor α) (m : α), smulLeft m u = smul u m) :=
  ⟨rfl, rfl, fun _ _ hi hj => atD_smul t k ht hi hj, fun _ _ => rfl⟩

/-- C6 witness: scenario 1 of the spec over `Int` — a 3×3 tensor filled
with 5, scaled by 3, is the 3×3 tensor filled with 15. -/
theorem smul_correct_witness :
    ((smul (⟨3, 3, List.replicate 9 (5 : Int)⟩ : Tensor Int) 3).rows =
      (⟨3, 3, List.replicate 9 (5 : Int)⟩ : Tensor Int).rows ∧
    (smul (⟨3, 3, List.replicate 9 (5 : Int)⟩ : Tensor Int) 3).cols =
      (⟨3, 3, List.replicate 9 (5 : Int)⟩ : Tensor Int).cols ∧
    (∀ i j : Nat, i < (⟨3, 3, List.replicate 9 (5 : Int)⟩ : Tensor Int).rows →
      j < (⟨3, 3, List.replicate 9 (5 : Int)⟩ : Tensor Int).cols →
      atD (smul (⟨3, 3, List.replicate 9 (5 : Int)⟩ : Tensor Int) 3) i j =
        atD (⟨3, 3, List.replicate 9 (5 : Int)⟩ : Tensor Int) i j * 3) ∧
    (∀ (u : Tensor Int) (m : Int), smulLeft m u = smul u m)) ∧
    smul (⟨3, 3, List.replicate 9 (5 : Int)⟩ : Tensor Int) 3 =
      (⟨3, 3, List.replicate 9 (15 : Int)⟩ : Tensor Int) :=
  ⟨smul_correct (⟨3, 3, List.replicate 9 (5 : Int)⟩ : Tensor Int) 3 (by decide), by rfl⟩

/-- C7: the out-of-place `transpose` returns a tensor of shape
`(t.cols, t.rows)` with `result(j, i) = t(i, j)` for all valid `(i, j)`,
total for every well-formed tensor; and applying it twice gives back the
original tensor. -/
theorem transpose_transpose_correct {α : Type} [Zero α] (t : Tensor α) (ht : Wf t) :
    ((transpose t).rows = t.cols ∧ (transpose t).cols = t.rows ∧
      ∀ i j : Nat, i < t.rows → j < t.cols → atD (transpose t) j i = atD t i j) ∧
    transpose (transpose t) = t := by
  refine ⟨⟨rfl, rfl, fun _ _ hi hj => atD_transpose t hi hj⟩, ?_⟩
  obtain ⟨r, c, d⟩ := t
  obtain ⟨hr, hc, hlen⟩ := ht
  show (⟨r, c, mkData r c (fun i j => atD (transpose ⟨r, c, d⟩) j i)⟩ : Tensor α) =
    ⟨r, c, d⟩
  have hdata : mkData r c (fun i j => atD (transpose ⟨r, c, d⟩) j i) = d := by
    apply List.ext_getElem
    · rw [length_mkData]
      exact hlen.symm
    · intro n h1 h2
      rw [getElem_mkData]
      show atD (transpose ⟨r, c, d⟩) (n % c) (n / c) = d[n]
      have hcpos : 0 < c := hc
      have hnlt : n < r * c := by
        have := h2
        rw [hlen] at this
        exact this
      have hdiv : n / c < r := (Nat.div_lt_iff_lt_mul hcpos).mpr hnlt
      have hmod : n % c < c := Nat.mod_lt n hcpos
      rw [atD_transpose (⟨r, c, d⟩ : Tensor α) hdiv hmod]
      show d.getD (n / c * c + n % c) 0 = d[n]
      have hn : n / c * c + n % c = n := by
        rw [Nat.mul_comm]
        exact Nat.div_add_mod n c
      rw [hn, List.getD_eq_getElem _ _ h2]
  rw [hdata]

/-- C7 witness: instantiated at the 2×3 tensor `[[1,2,3],[4,5,6]]`. -/
theorem transpose_transpose_correct_witness :
    (((transpose (⟨2, 3, [1, 2, 3, 4, 5, 6]⟩ : Tensor Int)).rows =
        (⟨2, 3, [1, 2, 3, 4, 5, 6]⟩ : Tensor Int).cols ∧
      (transpose (⟨2, 3, [1, 2, 3, 4, 5, 6]⟩ : Tensor Int)).cols =
        (⟨2, 3, [1, 2, 3, 4, 5, 6]⟩ : Tensor Int).rows ∧
      ∀ i j : Nat, i < (⟨2, 3, [1, 2, 3, 4, 5, 6]⟩ : Tensor Int).rows →
        j < (⟨2, 3, [1, 2, 3, 4, 5, 6]⟩ : Tensor Int).cols →
        atD (transpose (⟨2, 3, [1, 2, 3, 4, 5, 6]⟩ : Tensor Int)) j i =
          atD (⟨2, 3, [1, 2, 3, 4, 5, 6]⟩ : Tensor Int) i j) ∧
    transpose (transpose (⟨2, 3, [1, 2, 3, 4, 5, 6]⟩ : Tensor Int)) =
      (⟨2, 3, [1, 2, 3, 4, 5, 6]⟩ : Tensor Int)) ∧
    transpose (⟨2, 3, [1, 2, 3, 4, 5, 6]⟩ : Tensor Int) =
      (⟨3, 2, [1, 4, 2, 5, 3, 6]⟩ : Tensor Int) :=
  ⟨transpose_transpose_correct (⟨2, 3, [1, 2, 3, 4, 5, 6]⟩ : Tensor Int) (by decide),
    by rfl⟩

/-- C8 (amended): `render` produces row-major text with the elements of a
row separated by a single space and no trailing separator after the last
element of a row, and every row — the last one included — terminated by a
line break; the 2×2 tensor `[[1,2],[3,4]]` renders to `"1 2\n3 4\n"`. -/
theorem render_correct {α : Type} [Zero α] [ToString α] (t : Tensor α) (ht : Wf t) :
    render t = renderSpec t ∧
    render (⟨2, 2, [1, 2, 3, 4]⟩ : Tensor Int) = "1 2\n3 4\n" :=
  ⟨render_eq_renderSpec t ht.1 ht.2.1, by rfl⟩

/-- C8 witness: instantiated at the 2×2 tensor named by the claim. -/
theorem render_correct_witness :
    render (⟨2, 2, [1, 2, 3, 4]⟩ : Tensor Int) =
      renderSpec (⟨2, 2, [1, 2, 3, 4]⟩ : Tensor Int) ∧
    render (⟨2, 2, [1, 2, 3, 4]⟩ : Tensor Int) = "1 2\n3 4\n" :=
  render_correct (⟨2, 2, [1, 2, 3, 4]⟩ : Tensor Int) (by decide)

/-- C8 counterexample: the claim says the 2×2 tensor `[[1,2],[3,4]]`
renders to exactly `"1 2\n3 4"`.  The code (`print`, Tensor.hpp:248)
emits `std::endl` after every row, including the last, so the rendered
text is `"1 2\n3 4\n"` — which differs from the claimed text. -/
theorem render_counterexample :
    render (⟨2, 2, [1, 2, 3, 4]⟩ : Tensor Int) = "1 2\n3 4\n" ∧
    ("1 2\n3 4\n" : String) ≠ "1 2\n3 4" := by
  exact ⟨by rfl, by decide⟩

/-- C9: well-formedness — `rows ≥ 1`, `cols ≥ 1` and
`data.length = rows * cols` — holds for every tensor produced by the
public operations: it is established by `construct` and preserved by
`set`, `fill`, `add`, `sub`, `smul` (scale), `matmul` and `transpose`. -/
theorem wf_preserved (α : Type) [Zero α] [Add α] [Sub α] [Mul α] :
    (∀ (r c : Nat) (t : Tensor α), construct α r c = Except.ok t → Wf t) ∧
    (∀ (t : Tensor α) (i j : Nat) (v : α) (t2 : Tensor α),
      Wf t → set t i j v = Except.ok t2 → Wf t2) ∧
    (∀ (t : Tensor α) (v : α), Wf t → Wf (fill t v)) ∧
    (∀ (a b w : Tensor α), Wf a → Wf b → add a b = Except.ok w → Wf w) ∧
    (∀ (a b w : Tensor α), Wf a → Wf b → sub a b = Except.ok w → Wf w) ∧
    (∀ (t : Tensor α) (k : α), Wf t → Wf (smul t k)) ∧
    (∀ (a b w : Tensor α), Wf a → Wf b → matmul a b = Except.ok w → Wf w) ∧
    (∀ (t : Tensor α), Wf t → Wf (transpose t)) :=
  ⟨fun _ _ _ h => wf_construct h,
    fun _ _ _ _ _ ht h => wf_set ht h,
    fun _ v ht => wf_fill v ht,
    fun _ _ _ ha hb h => wf_elementWiseOp ha hb h,
    fun _ _ _ ha hb h => wf_elementWiseOp ha hb h,
    fun _ k ht => wf_smul k ht,
    fun _ _ _ ha hb h => wf_matmul ha hb h,
    fun _ ht => wf_transpose ht⟩

/-- C9 witness: the invariant holds concretely for the tensor built by
`construct Int 2 3`, via the `construct` conjunct of the theorem. -/
theorem wf_preserved_witness :
    Wf (⟨2, 3, List.replicate 6 (0 : Int)⟩ : Tensor Int) :=
  (wf_preserved Int).1 2 3 (⟨2, 3, List.replicate 6 (0 : Int)⟩ : Tensor Int) (by rfl)

/-- C10 (implicit): in the reflected form `k * t` with a scalar type
different from the element type, the scalar is converted to the element
type once, before multiplying (the C++ call `tensor * scalar` binds the
`const T&` parameter).  For a non-integer scalar on an `int` tensor the
conversion truncates toward zero, so `0.5 * t` (here: the exactly
representable rational `1/2` with truncating conversion `ratToIntTrunc`)
yields the all-zero tensor of the shape of `t` rather than halving elements. -/
theorem scalar_conversion_truncates (t : Tensor Int) (ht : Wf t) :
    ratToIntTrunc (1 / 2 : Rat) = 0 ∧
    (∀ (k : Rat) (u : Tensor Int),
      smulLeftConv ratToIntTrunc k u = smul u (ratToIntTrunc k)) ∧
    (smulLeftConv ratToIntTrunc (1 / 2 : Rat) t).rows = t.rows ∧
    (smulLeftConv ratToIntTrunc (1 / 2 : Rat) t).cols = t.cols ∧
    ∀ i j : Nat, i < t.rows → j < t.cols →
      atD (smulLeftConv ratToIntTrunc (1 / 2 : Rat) t) i j = 0 := by
  have h0 : ratToIntTrunc (1 / 2 : Rat) = 0 := by
    unfold ratToIntTrunc
    norm_num
    decide
  refine ⟨h0, fun _ _ => rfl, rfl, rfl, ?_⟩
  intro i j hi hj
  show atD (smul t (ratToIntTrunc (1 / 2 : Rat))) i j = 0
  rw [h0, atD_smul t 0 ht hi hj, mul_zero]

/-- C10 witness: instantiated at the 1×2 tensor `[5 7]`; also evaluates
the halving attempt concretely to the zero tensor. -/
theorem scalar_conversion_truncates_witness :
    (ratToIntTrunc (1 / 2 : Rat) = 0 ∧
    (∀ (k : Rat) (u : Tensor Int),
      smulLeftConv ratToIntTrunc k u = smul u (ratToIntTrunc k)) ∧
    (smulLeftConv ratToIntTrunc (1 / 2 : Rat) (⟨1, 2, [5, 7]⟩ : Tensor Int)).rows =
      (⟨1, 2, [5, 7]⟩ : Tensor Int).rows ∧
    (smulLeftConv ratToIntTrunc (1 / 2 : Rat) (⟨1, 2, [5, 7]⟩ : Tensor Int)).cols =
      (⟨1, 2, [5, 7]⟩ : Tensor Int).cols ∧
    ∀ i j : Nat, i < (⟨1, 2, [5, 7]⟩ : Tensor Int).rows →
      j < (⟨1, 2, [5, 7]⟩ : Tensor Int).cols →
      atD (smulLeftConv ratToIntTrunc (1 / 2 : Rat) (⟨1, 2, [5, 7]⟩ : Tensor Int)) i j = 0) ∧
    smulLeftConv ratToIntTrunc (1 / 2 : Rat) (⟨1, 2, [5, 7]⟩ : Tensor Int) =
      (⟨1, 2, [0, 0]⟩ : Tensor Int) := by
  have h0 : ratToIntTrunc (1 / 2 : Rat) = 0 := by
    unfold ratToIntTrunc
    norm_num
    decide
  refine ⟨scalar_conversion_truncates (⟨1, 2, [5, 7]⟩ : Tensor Int) (by decide), ?_⟩
  show smul (⟨1, 2, [5, 7]⟩ : Tensor Int) (ratToIntTrunc (1 / 2 : Rat)) = _
  rw [h0]
  rfl

end TensorHpp
